/-
Verification of the stock-analysis-app portfolio simulation core.

Shallow embedding of:
  app/services/simulation/models/trading.py      (Position, Transaction, signatures)
  app/services/simulation/models/parameters.py   (SimulationParameters)
  app/services/simulation/models/blue_model.py   (BlueModel ledger)
  app/services/technical_analysis.py             (calculate_macd)
  app/services/watchlist_analyzer.py             (trend strength, signal classification)
  app/services/simulation/simulation_engine.py   (metrics: FIFO trades, Sharpe branch)

Python floats are modelled as exact rationals (ℚ), dates as integer day
numbers (ℤ), Python dicts keyed by symbol as association lists.  Python
int() truncation toward zero is modelled explicitly (pyInt).
-/
import Mathlib

namespace StockSim

/-- Python int(q): truncation toward zero (app code only applies it to
nonnegative quantities, where it coincides with the floor). -/
def pyInt (q : ℚ) : ℤ := if 0 ≤ q then ⌊q⌋ else ⌈q⌉

/-- Association-list lookup, modelling Python dict access d.get(k). -/
def alookup {α : Type} (l : List (String × α)) (k : String) : Option α :=
  match l with
  | [] => none
  | (k2, v) :: rest => if k2 = k then some v else alookup rest k

/-- Association-list update, modelling Python dict assignment d[k] = v. -/
def aset {α : Type} (l : List (String × α)) (k : String) (v : α) : List (String × α) :=
  match l with
  | [] => [(k, v)]
  | (k2, v2) :: rest => if k2 = k then (k, v) :: rest else (k2, v2) :: aset rest k v

/-- Association-list removal, modelling Python del d[k]. -/
def aerase {α : Type} (l : List (String × α)) (k : String) : List (String × α) :=
  match l with
  | [] => []
  | (k2, v2) :: rest => if k2 = k then rest else (k2, v2) :: aerase rest k

/-- trading.py SignalType enum. -/
inductive SignalType where
  | STRONG_BUY
  | BUY
  | NEUTRAL
  | SELL
  | STRONG_SELL
deriving DecidableEq, Repr

/-- trading.py TransactionType enum. -/
inductive TransactionType where
  | BUY
  | SELL
deriving DecidableEq, Repr

/-- TransactionType.value strings from trading.py. -/
def TransactionType.value : TransactionType → String
  | .BUY => "Buy"
  | .SELL => "Sell"

/-- trading.py Position dataclass. -/
structure Position where
  symbol : String
  shares : ℤ
  average_price : ℚ
  last_price : ℚ
deriving DecidableEq, Repr

/-- Position.market_value property: shares * last_price. -/
def Position.market_value (p : Position) : ℚ := (p.shares : ℚ) * p.last_price

/-- trading.py Transaction dataclass. -/
structure Transaction where
  date : ℤ
  symbol : String
  transaction_type : TransactionType
  signal_type : SignalType
  shares : ℤ
  price : ℚ
  fees : ℚ
deriving DecidableEq, Repr

/-- Transaction.total_amount property: shares*price + fees for a buy,
shares*price - fees for a sell. -/
def Transaction.total_amount (t : Transaction) : ℚ :=
  if t.transaction_type = TransactionType.BUY then
    (t.shares : ℚ) * t.price + t.fees
  else
    (t.shares : ℚ) * t.price - t.fees

/-- parameters.py SimulationParameters; the investment_rules dict is
flattened into its four fixed keys (the code always constructs all four).
start_date is omitted: it only feeds the driver loop, not the ledger. -/
structure SimulationParameters where
  initial_capital : ℚ
  transaction_fee_percent : ℚ
  strong_buy_percent : ℚ
  buy_percent : ℚ
  sell_percent : ℚ
  strong_sell_percent : ℚ
  max_single_position_percent : ℚ
deriving DecidableEq, Repr

/-- The percentage/capital clauses of SimulationParameters.is_valid
(parameters.py lines 35-44); the start-date clause concerns the driver
and is not part of the ledger state. -/
def SimulationParameters.percentages_and_capital_valid (p : SimulationParameters) : Prop :=
  0 ≤ p.transaction_fee_percent ∧ p.transaction_fee_percent ≤ 100 ∧
  0 ≤ p.max_single_position_percent ∧ p.max_single_position_percent ≤ 100 ∧
  0 ≤ p.strong_buy_percent ∧ p.strong_buy_percent ≤ 100 ∧
  0 ≤ p.buy_percent ∧ p.buy_percent ≤ 100 ∧
  0 ≤ p.sell_percent ∧ p.sell_percent ≤ 100 ∧
  0 ≤ p.strong_sell_percent ∧ p.strong_sell_percent ≤ 100 ∧
  0 < p.initial_capital

instance (p : SimulationParameters) : Decidable p.percentages_and_capital_valid := by
  unfold SimulationParameters.percentages_and_capital_valid
  infer_instance

/-- blue_model.py BlueModel portfolio state (the fields the ledger
mutates; snapshots/records are reconstructed where a claim needs them). -/
structure BlueModel where
  parameters : SimulationParameters
  cash : ℚ
  positions : List (String × Position)
  transactions : List Transaction
  processed_transaction_signatures : List String
deriving DecidableEq, Repr

/-- BlueModel.__init__: fresh ledger with cash = initial_capital. -/
def init_model (p : SimulationParameters) : BlueModel :=
  { parameters := p
    cash := p.initial_capital
    positions := []
    transactions := []
    processed_transaction_signatures := [] }

/-- BlueModel.get_total_portfolio_value: cash plus the sum of position
market values. -/
def BlueModel.get_total_portfolio_value (m : BlueModel) : ℚ :=
  m.cash + (m.positions.map (fun sp => sp.2.market_value)).sum

/-- BlueModel._calculate_max_shares: int(available_cash / (price * (1 + fee/100))). -/
def BlueModel.calculate_max_shares (m : BlueModel) (price : ℚ) (available_cash : ℚ) : ℤ :=
  pyInt (available_cash / (price * (1 + m.parameters.transaction_fee_percent / 100)))

/-- BlueModel._calculate_investment_amount. -/
def BlueModel.calculate_investment_amount (m : BlueModel) (signal : SignalType)
    (available_cash : ℚ) (current_position_value : ℚ) : ℚ :=
  let portfolio_value := m.get_total_portfolio_value
  match signal with
  | .STRONG_BUY =>
      min (available_cash * (m.parameters.strong_buy_percent / 100))
        (portfolio_value * (m.parameters.max_single_position_percent / 100)
          - current_position_value)
  | .BUY =>
      min (available_cash * (m.parameters.buy_percent / 100))
        (portfolio_value * (m.parameters.max_single_position_percent / 100)
          - current_position_value)
  | .STRONG_SELL => current_position_value * (m.parameters.strong_sell_percent / 100)
  | .SELL => current_position_value * (m.parameters.sell_percent / 100)
  | .NEUTRAL => 0

/-- BlueModel._get_transaction_signature: the dedup key string
date_symbol_type_shares.  The price argument of the Python method is
unused in the produced key, exactly as in the source. -/
def transaction_signature (date : ℤ) (symbol : String) (t : TransactionType) (shares : ℤ) : String :=
  toString date ++ "_" ++ symbol ++ "_" ++ t.value ++ "_" ++ toString shares

/-- Signature of an existing Transaction (trading.py Transaction.get_signature). -/
def Transaction.get_signature (t : Transaction) : String :=
  transaction_signature t.date t.symbol t.transaction_type t.shares

/-- The order-sizing prefix of BlueModel._execute_transaction (lines
131-166): decides direction and share count, or rejects (None) on
non-positive amount, zero computed shares, or absent/empty position.
NEUTRAL signals yield amount 0 and are rejected at the amount check,
as in the source. -/
def BlueModel.computeOrder (m : BlueModel) (symbol : String) (signal : SignalType)
    (price : ℚ) : Option (TransactionType × ℤ) :=
  let current_position := alookup m.positions symbol
  let current_position_value :=
    match current_position with
    | some p => p.market_value
    | none => 0
  let amount := m.calculate_investment_amount signal m.cash current_position_value
  if amount ≤ 0 then none
  else if signal = .STRONG_BUY ∨ signal = .BUY then
    let shares := m.calculate_max_shares price amount
    if shares ≤ 0 then none else some (TransactionType.BUY, shares)
  else
    match current_position with
    | none => none
    | some p =>
      if p.shares ≤ 0 then none
      else
        let amount_shares := max 1 (pyInt (amount / current_position_value * (p.shares : ℚ)))
        let shares := min p.shares amount_shares
        if shares ≤ 0 then none else some (TransactionType.SELL, shares)

/-- The dedup key an _execute_transaction attempt would check, when the
attempt survives the sizing stage (lines 168-171). -/
def BlueModel.attempt_signature (m : BlueModel) (date : ℤ) (symbol : String)
    (signal : SignalType) (price : ℚ) : Option String :=
  (m.computeOrder symbol signal price).map
    (fun ts => transaction_signature date symbol ts.1 ts.2)

/-- BlueModel._execute_transaction (lines 121-254): sizing, dedup check,
fee, position/cash update, transaction append.  Rejections and the
Python except-branch all surface as (m, none). -/
def BlueModel.execute_transaction (m : BlueModel) (date : ℤ) (symbol : String)
    (signal : SignalType) (price : ℚ) : BlueModel × Option Transaction :=
  match m.computeOrder symbol signal price with
  | none => (m, none)
  | some (ttype, shares) =>
    let sg := transaction_signature date symbol ttype shares
    if sg ∈ m.processed_transaction_signatures then (m, none)
    else
      let fee := (shares : ℚ) * price * (m.parameters.transaction_fee_percent / 100)
      let t : Transaction :=
        { date := date, symbol := symbol, transaction_type := ttype,
          signal_type := signal, shares := shares, price := price, fees := fee }
      match ttype with
      | .BUY =>
        let positions' :=
          match alookup m.positions symbol with
          | none =>
            aset m.positions symbol
              { symbol := symbol, shares := shares, average_price := price, last_price := price }
          | some p =>
            let total_cost := (p.shares : ℚ) * p.average_price + (shares : ℚ) * price
            let total_shares := p.shares + shares
            aset m.positions symbol
              { symbol := symbol, shares := total_shares,
                average_price := total_cost / (total_shares : ℚ), last_price := price }
        ({ m with
            positions := positions'
            cash := m.cash - t.total_amount
            transactions := m.transactions ++ [t]
            processed_transaction_signatures := sg :: m.processed_transaction_signatures },
          some t)
      | .SELL =>
        let positions' :=
          match alookup m.positions symbol with
          | none => m.positions
          | some p =>
            let remaining := p.shares - shares
            if remaining = 0 then aerase m.positions symbol
            else aset m.positions symbol { p with shares := remaining, last_price := price }
        ({ m with
            positions := positions'
            cash := m.cash + t.total_amount
            transactions := m.transactions ++ [t]
            processed_transaction_signatures := sg :: m.processed_transaction_signatures },
          some t)

/-- BlueModel.update_position_values: for every held symbol present in
the price map, set last_price to the day's price. -/
def BlueModel.update_position_values (m : BlueModel) (prices : List (String × ℚ)) : BlueModel :=
  { m with
      positions := m.positions.map (fun sp =>
        match alookup prices sp.1 with
        | some px => (sp.1, { sp.2 with last_price := px })
        | none => sp) }

/-- One ledger interaction: an execute_transaction call or a daily
update_position_values call. -/
inductive LedgerStep where
  | execute (date : ℤ) (symbol : String) (signal : SignalType) (price : ℚ)
  | updatePrices (prices : List (String × ℚ))

/-- Run a sequence of ledger interactions. -/
def run_steps (m : BlueModel) : List LedgerStep → BlueModel
  | [] => m
  | (LedgerStep.execute d s g p) :: rest => run_steps (m.execute_transaction d s g p).1 rest
  | (LedgerStep.updatePrices ps) :: rest => run_steps (m.update_position_values ps) rest

/-!  technical_analysis.py : MACD  -/

/-- The recursion behind pandas Series.ewm(span, adjust=False).mean()
after the seed: y_t = (1 - alpha) * y_prev + alpha * x_t. -/
def ewmAux (alpha : ℚ) (prev : ℚ) : List ℚ → List ℚ
  | [] => []
  | x :: xs =>
    let y := (1 - alpha) * prev + alpha * x
    y :: ewmAux alpha y xs

/-- pandas Series.ewm(span, adjust=False).mean(): alpha = 2/(span+1),
seeded from the first element; empty input yields an empty series. -/
def ewmMean (span : ℕ) (xs : List ℚ) : List ℚ :=
  match xs with
  | [] => []
  | x :: rest => x :: ewmAux (2 / ((span : ℚ) + 1)) x rest

/-- TechnicalAnalysisService.calculate_macd.  The input DataFrame is
modelled by its optional close column (none = the column is absent, the
only condition the method checks before computing); failure is the
raised ValueError. -/
def calculate_macd (close : Option (List ℚ)) (fast_period slow_period signal_period : ℕ) :
    Except String (List ℚ × List ℚ × List ℚ) :=
  match close with
  | none => Except.error "Input DataFrame must contain close column"
  | some c =>
    let fast_ema := ewmMean fast_period c
    let slow_ema := ewmMean slow_period c
    let macd_line := List.zipWith (fun a b => a - b) fast_ema slow_ema
    let signal_line := ewmMean signal_period macd_line
    let histogram := List.zipWith (fun a b => a - b) macd_line signal_line
    Except.ok (macd_line, signal_line, histogram)

/-- Whether an Except computation succeeded. -/
def exceptOk {ε α : Type} : Except ε α → Bool
  | Except.ok _ => true
  | Except.error _ => false

/-- Modelled from the spec (section 4.1): EMA as "the recursive
exponential weighting with smoothing factor 2/(period+1), seeded from
the first value (no SMA warm-up)"; written independently of ewmMean for
the refinement proof, with step e_t = e_prev + alpha * (x_t - e_prev). -/
def emaSpecAux (alpha : ℚ) (prev : ℚ) : List ℚ → List ℚ
  | [] => []
  | x :: xs =>
    let e := prev + alpha * (x - prev)
    e :: emaSpecAux alpha e xs

/-- Modelled from the spec: EMA(series, period), seeded from the first value. -/
def emaSpec (period : ℕ) (xs : List ℚ) : List ℚ :=
  match xs with
  | [] => []
  | x :: rest => x :: emaSpecAux (2 / ((period : ℚ) + 1)) x rest

/-- Modelled from the spec: macd_line = EMA(close, fast) - EMA(close, slow). -/
def specMacdLine (fast slow : ℕ) (close : List ℚ) : List ℚ :=
  List.zipWith (fun a b => a - b) (emaSpec fast close) (emaSpec slow close)

/-- Modelled from the spec: signal_line = EMA(macd_line, signal). -/
def specSignalLine (fast slow signal : ℕ) (close : List ℚ) : List ℚ :=
  emaSpec signal (specMacdLine fast slow close)

/-- Modelled from the spec: histogram = macd_line - signal_line. -/
def specHistogram (fast slow signal : ℕ) (close : List ℚ) : List ℚ :=
  List.zipWith (fun a b => a - b) (specMacdLine fast slow close) (specSignalLine fast slow signal close)

/-!  watchlist_analyzer.py : trend strength and classification  -/

/-- The macd_data dict passed around watchlist_analyzer.py; an absent
key (the source of the KeyError the fallback code handles) is none. -/
structure MacdData where
  macd_line : Option (List ℚ)
  signal_line : Option (List ℚ)
  histogram : Option (List ℚ)
deriving DecidableEq, Repr

/-- pandas Series.tail(n). -/
def listTail (n : ℕ) (l : List ℚ) : List ℚ := l.drop (l.length - n)

/-- The data a successful run of _calculate_trend_strength combines.
The final score tanh(histStrength)*0.4 + tanh(priceTrend)*0.3 +
tanh(macdTrend)*0.3 is a transcendental function of these windows and is
kept symbolic; every claim in scope depends only on which branch is
taken and on the rational fallback values. -/
inductive TrendValue where
  | degenerate
  | ingredients (recentHist recentClose recentMacd recentSignal : List ℚ)
deriving DecidableEq, Repr

/-- The try-block of WatchlistAnalyzer._calculate_trend_strength (lines
41-99): fewer than 3 bars returns 0.0 before any key access; otherwise
every macd_data key is read and a missing key raises (KeyError), the
exception the surrounding handler catches. -/
def trendStrengthChecked (close : List ℚ) (m : MacdData) : Except Unit TrendValue :=
  let periods := min 10 close.length
  if periods < 3 then Except.ok TrendValue.degenerate
  else
    match m.histogram, m.macd_line, m.signal_line with
    | some h, some ml, some sl =>
        Except.ok (TrendValue.ingredients (listTail periods h) (listTail periods close)
          (listTail periods ml) (listTail periods sl))
    | _, _, _ => Except.error ()

/-- Result of _calculate_trend_strength: either the computed score (kept
symbolic through its ingredients) or the rational value substituted by
the except-branch. -/
inductive TrendOutcome where
  | computed (v : TrendValue)
  | fallbackValue (q : ℚ)
deriving DecidableEq, Repr

/-- WatchlistAnalyzer._calculate_trend_strength including its
except-branch (lines 101-110): on an exception, 0.1 if the last
histogram value is positive else -0.1; if reading the last histogram
value itself fails (missing key or empty series), 0.0. -/
def calculate_trend_strength (close : List ℚ) (m : MacdData) : TrendOutcome :=
  match trendStrengthChecked close m with
  | Except.ok v => TrendOutcome.computed v
  | Except.error _ =>
    match m.histogram with
    | some hist =>
      match hist.getLast? with
      | some last_hist =>
          TrendOutcome.fallbackValue (if 0 < last_hist then 1/10 else -(1/10))
      | none => TrendOutcome.fallbackValue 0
    | none => TrendOutcome.fallbackValue 0

/-- Per-category entries of the user recommendation parameters dict:
params.get(category, dict()).get(trend_strength, default); none models a
missing key. -/
structure RecommendationParams where
  strong_buy : Option ℚ
  buy : Option ℚ
  sell : Option ℚ
  strong_sell : Option ℚ
deriving DecidableEq, Repr

/-- The threshold-classification tail of
WatchlistAnalyzer._analyze_macd_signal (lines 147-170): defaults
strong_buy=0.5, buy=0.0, sell=0.0, strong_sell=-0.5, then the fixed
first-match-wins cascade.  The Python method returns the label strings;
they are identified with the SignalType enum values here. -/
def analyze_macd_signal_classify (strength : ℚ) (params : RecommendationParams) : SignalType :=
  let strong_buy_threshold := params.strong_buy.getD (1/2)
  let buy_threshold := params.buy.getD 0
  let sell_threshold := params.sell.getD 0
  let strong_sell_threshold := params.strong_sell.getD (-(1/2))
  if strong_buy_threshold ≤ strength then SignalType.STRONG_BUY
  else if buy_threshold ≤ strength then SignalType.BUY
  else if strength ≤ strong_sell_threshold then SignalType.STRONG_SELL
  else if strength ≤ sell_threshold then SignalType.SELL
  else SignalType.NEUTRAL

/-!  simulation_engine.py : metrics  -/

/-- Tail of pandas Series.pct_change past the first element. -/
def pctChangeAux (prev : ℚ) : List ℚ → List ℚ
  | [] => []
  | x :: xs => (x - prev) / prev :: pctChangeAux x xs

/-- pandas Series.pct_change().fillna(0): leading NaN becomes 0; later
entries are (x_i - x_prev)/x_prev.  (Rational division by zero gives 0
where pandas would give inf/NaN; the claims only involve nonzero or
constant series, where the two agree after fillna.) -/
def pct_change_filled : List ℚ → List ℚ
  | [] => []
  | x :: xs => 0 :: pctChangeAux x xs

/-- Arithmetic mean, sum/len (only used on nonempty lists). -/
def listMean (l : List ℚ) : ℚ := l.sum / (l.length : ℚ)

/-- pandas Series.std()**2 with the default ddof=1: none models the NaN
a series of fewer than 2 points produces. -/
def sampleVariance (l : List ℚ) : Option ℚ :=
  if l.length < 2 then none
  else some ((l.map (fun x => (x - listMean l) ^ 2)).sum / ((l.length : ℚ) - 1))

/-- The branch the Sharpe computation of SimulationEngine._calculate_metrics
(lines 270-281) takes.  nanValue: std is NaN (fewer than 2 returns), the
guard std != 0 is True and the quotient is NaN.  zeroValue: std == 0, the
code returns 0.  fromFormula m v: the code returns
(m * 252) / (sqrt v * sqrt 252), recorded through its rational
ingredients m = mean(excess) and v = var(excess). -/
inductive SharpeBranch where
  | nanValue
  | zeroValue
  | fromFormula (meanExcess : ℚ) (varExcess : ℚ)
deriving DecidableEq, Repr

/-- The Sharpe computation of _calculate_metrics: daily returns from the
portfolio-value series, excess over the daily risk-free rate, then the
std-guarded quotient.  daily_rf = (1+0.02)^(1/252)-1 is irrational and
is passed in as a parameter. -/
def sharpe_branch (daily_rf : ℚ) (portfolio_values : List ℚ) : SharpeBranch :=
  let daily_returns := pct_change_filled portfolio_values
  let excess_returns := daily_returns.map (fun r => r - daily_rf)
  match sampleVariance excess_returns with
  | none => SharpeBranch.nanValue
  | some v =>
    if v = 0 then SharpeBranch.zeroValue
    else SharpeBranch.fromFormula (listMean excess_returns) v

/-- A buy lot as stored in position_start_dates inside
_calculate_metrics. -/
structure BuyLot where
  date : ℤ
  price : ℚ
  shares : ℤ
  fees : ℚ
deriving DecidableEq, Repr

/-- A completed-trade record (profit, holding period in days). -/
structure CompletedTrade where
  profit : ℚ
  holding_period : ℤ
deriving DecidableEq, Repr

/-- The FIFO while-loop of _calculate_metrics (lines 227-247): consume
lots from the front while shares remain to match, pro-rating both sides'
fees by shares; a partially consumed lot stays at the front with its
shares reduced (the loop then exits since shares_to_match hits 0). -/
def consumeLots (t : Transaction) : List BuyLot → ℤ → List BuyLot × List CompletedTrade
  | [], _ => ([], [])
  | lot :: rest, shares_to_match =>
    if shares_to_match ≤ 0 then (lot :: rest, [])
    else
      let shares_sold := min lot.shares shares_to_match
      let buy_cost := (shares_sold : ℚ) * lot.price + lot.fees * (shares_sold : ℚ) / (lot.shares : ℚ)
      let sell_proceeds := (shares_sold : ℚ) * t.price - t.fees * (shares_sold : ℚ) / (t.shares : ℚ)
      let trade : CompletedTrade :=
        { profit := sell_proceeds - buy_cost, holding_period := t.date - lot.date }
      if lot.shares - shares_sold ≤ 0 then
        let res := consumeLots t rest (shares_to_match - shares_sold)
        (res.1, trade :: res.2)
      else
        ({ lot with shares := lot.shares - shares_sold } :: rest, [trade])

/-- The completed-trade reconstruction of _calculate_metrics (lines
211-252): buys append a lot to their symbol's list; sells with a known
symbol run the FIFO loop and delete the symbol once its lots are
exhausted; sells with no recorded buys are skipped. -/
def completedTradesFifo : List Transaction → List (String × List BuyLot) → List CompletedTrade
  | [], _ => []
  | t :: ts, lots_map =>
    match t.transaction_type with
    | TransactionType.BUY =>
      let lots := (alookup lots_map t.symbol).getD []
      completedTradesFifo ts
        (aset lots_map t.symbol (lots ++ [{ date := t.date, price := t.price, shares := t.shares, fees := t.fees }]))
    | TransactionType.SELL =>
      match alookup lots_map t.symbol with
      | none => completedTradesFifo ts lots_map
      | some lots =>
        let res := consumeLots t lots t.shares
        let lots_map2 :=
          if res.1.isEmpty then aerase lots_map t.symbol
          else aset lots_map t.symbol res.1
        res.2 ++ completedTradesFifo ts lots_map2

/-!  Derived quantities and concrete scenarios used by the claims  -/

/-- Sum of (shares*price - fees) over executed Sell transactions. -/
def sell_proceeds_sum (ts : List Transaction) : ℚ :=
  (ts.map fun t =>
    if t.transaction_type = TransactionType.SELL then (t.shares : ℚ) * t.price - t.fees else 0).sum

/-- Sum of (shares*price + fees) over executed Buy transactions. -/
def buy_costs_sum (ts : List Transaction) : ℚ :=
  (ts.map fun t =>
    if t.transaction_type = TransactionType.BUY then (t.shares : ℚ) * t.price + t.fees else 0).sum

/-- Sum of position market values held by the ledger. -/
def positions_value (m : BlueModel) : ℚ :=
  (m.positions.map fun sp => sp.2.market_value).sum

/-- The invariant the ledger actually maintains: cash equals initial
capital plus sell proceeds net of fees minus buy costs including fees. -/
def cash_identity (m : BlueModel) : Prop :=
  m.cash = m.parameters.initial_capital
    + sell_proceeds_sum m.transactions - buy_costs_sum m.transactions

/-- Valid parameters for the C1 scenario: zero fee, 100-percent strong
buy, no position cap below the portfolio. -/
def cexC1Params : SimulationParameters :=
  { initial_capital := 1000, transaction_fee_percent := 0,
    strong_buy_percent := 100, buy_percent := 10, sell_percent := 57,
    strong_sell_percent := 100, max_single_position_percent := 100 }

/-- Parameters for the C5 dedup scenario: no fee, sell category at 50
percent. -/
def cexC5Params : SimulationParameters :=
  { initial_capital := 100, transaction_fee_percent := 0,
    strong_buy_percent := 20, buy_percent := 10, sell_percent := 50,
    strong_sell_percent := 100, max_single_position_percent := 100 }

/-- C5 scenario start state: 3 shares of AAPL marked at 10, cash 100. -/
def cexC5Model : BlueModel :=
  { parameters := cexC5Params, cash := 100,
    positions := [("AAPL", { symbol := "AAPL", shares := 3, average_price := 10, last_price := 10 })],
    transactions := [], processed_transaction_signatures := [] }

/-- The single transaction the C5 scenario records: selling 1 share
(50 percent of 3 shares truncates to 1). -/
def cexC5T : Transaction :=
  { date := 0, symbol := "AAPL", transaction_type := TransactionType.SELL,
    signal_type := SignalType.SELL, shares := 1, price := 10, fees := 0 }

/-- C5 scenario state after the first sell: 2 shares left, cash 110,
the dedup key recorded.  The repeated identical call again computes a
1-share sell, hits the same key, and must be a no-op. -/
def cexC5Model2 : BlueModel :=
  { parameters := cexC5Params, cash := 110,
    positions := [("AAPL", { symbol := "AAPL", shares := 2, average_price := 10, last_price := 10 })],
    transactions := [cexC5T],
    processed_transaction_signatures := [transaction_signature 0 "AAPL" TransactionType.SELL 1] }

/-- The position of the C3 sizing scenario: 10 shares marked at 1. -/
def cexC3Pos : Position := { symbol := "A", shares := 10, average_price := 1, last_price := 1 }

/-- C3 scenario state: the cexC1Params sell category is 57 percent, so a
Sell computes int(5.7) = 5 shares where nearest-integer rounding would
give 6. -/
def cexC3Model : BlueModel :=
  { parameters := cexC1Params, cash := 0,
    positions := [("A", cexC3Pos)],
    transactions := [], processed_transaction_signatures := [] }

/-- The positivity condition C10 imposes on a ledger interaction: an
execute call carries a positive price; a price update is unconstrained
(it does not touch cash). -/
def stepPricePositive : LedgerStep → Prop :=
  fun s => match s with
  | LedgerStep.execute _ _ _ pr => 0 < pr
  | LedgerStep.updatePrices _ => True

instance (s : LedgerStep) : Decidable (stepPricePositive s) := by
  cases s <;> dsimp only [stepPricePositive] <;> infer_instance

/-- C9 witness macd_data: signal_line key missing (raises KeyError in
the checked computation), histogram present and nonempty with positive
last value. -/
def cexC9MacdW : MacdData := { macd_line := some [1], signal_line := none, histogram := some [2] }

/-- C9 counterexample macd_data: the histogram key itself is missing, so
the checked computation raises and the inner fallback read also fails,
yielding strength 0.0 rather than plus or minus 0.1. -/
def cexC9MacdC : MacdData := { macd_line := some [1], signal_line := some [1], histogram := none }

/-!  Helper lemmas  -/

theorem ewmAux_eq_emaSpecAux (alpha : ℚ) :
    ∀ (xs : List ℚ) (prev : ℚ), ewmAux alpha prev xs = emaSpecAux alpha prev xs := by
  intro xs
  induction xs with
  | nil => intro prev; rfl
  | cons x rest ih =>
    intro prev
    simp only [ewmAux, emaSpecAux]
    have h : (1 - alpha) * prev + alpha * x = prev + alpha * (x - prev) := by ring
    rw [h, ih]

theorem ewmMean_eq_emaSpec (span : ℕ) (xs : List ℚ) : ewmMean span xs = emaSpec span xs := by
  cases xs with
  | nil => rfl
  | cons x rest => simp only [ewmMean, emaSpec, ewmAux_eq_emaSpecAux]

theorem execute_transaction_spec (m : BlueModel) (d : ℤ) (sym : String) (g : SignalType) (pr : ℚ) :
    m.execute_transaction d sym g pr = (m, none) ∨
    ∃ m2 t, m.execute_transaction d sym g pr = (m2, some t) ∧
      m.computeOrder sym g pr = some (t.transaction_type, t.shares) ∧
      t.date = d ∧ t.symbol = sym ∧ t.signal_type = g ∧ t.price = pr ∧
      t.fees = (t.shares : ℚ) * pr * (m.parameters.transaction_fee_percent / 100) ∧
      t.get_signature ∉ m.processed_transaction_signatures ∧
      m2.parameters = m.parameters ∧
      m2.transactions = m.transactions ++ [t] ∧
      m2.processed_transaction_signatures = t.get_signature :: m.processed_transaction_signatures ∧
      m2.cash = (if t.transaction_type = TransactionType.BUY then m.cash - t.total_amount
                 else m.cash + t.total_amount) := by
  rcases hco : m.computeOrder sym g pr with _ | ⟨ty, sh⟩
  · left
    simp only [BlueModel.execute_transaction, hco]
  · by_cases hmem : transaction_signature d sym ty sh ∈ m.processed_transaction_signatures
    · left
      simp only [BlueModel.execute_transaction, hco, hmem, if_pos]
    · right
      cases ty
      all_goals
        simp only [BlueModel.execute_transaction, hco]
        rw [if_neg hmem]
        exact ⟨_, _, rfl, rfl, rfl, rfl, rfl, rfl, rfl, hmem, rfl, rfl, rfl, by simp⟩

theorem sell_proceeds_sum_append (ts : List Transaction) (t : Transaction) :
    sell_proceeds_sum (ts ++ [t]) = sell_proceeds_sum ts +
      (if t.transaction_type = TransactionType.SELL then (t.shares : ℚ) * t.price - t.fees else 0) := by
  simp [sell_proceeds_sum]

theorem buy_costs_sum_append (ts : List Transaction) (t : Transaction) :
    buy_costs_sum (ts ++ [t]) = buy_costs_sum ts +
      (if t.transaction_type = TransactionType.BUY then (t.shares : ℚ) * t.price + t.fees else 0) := by
  simp [buy_costs_sum]

theorem cash_identity_execute (m : BlueModel) (d : ℤ) (sym : String) (g : SignalType) (pr : ℚ)
    (h : cash_identity m) : cash_identity (m.execute_transaction d sym g pr).1 := by
  rcases execute_transaction_spec m d sym g pr with heq |
    ⟨m2, t, heq, _, _, _, _, _, _, _, hpar, htr, _, hcash⟩
  · rw [heq]; exact h
  · have h1 : (m.execute_transaction d sym g pr).1 = m2 := by rw [heq]
    unfold cash_identity at h ⊢
    rw [h1, hcash, hpar, htr, sell_proceeds_sum_append, buy_costs_sum_append, h]
    cases htt : t.transaction_type <;> simp [htt, Transaction.total_amount] <;> ring

theorem cash_identity_update (m : BlueModel) (ps : List (String × ℚ))
    (h : cash_identity m) : cash_identity (m.update_position_values ps) := h

theorem cash_identity_run (steps : List LedgerStep) :
    ∀ m : BlueModel, cash_identity m → cash_identity (run_steps m steps) := by
  induction steps with
  | nil => intro m h; exact h
  | cons s rest ih =>
    intro m h
    cases s with
    | execute d sym g pr => exact ih _ (cash_identity_execute m d sym g pr h)
    | updatePrices ps => exact ih _ (cash_identity_update m ps h)

theorem execute_transaction_parameters (m : BlueModel) (d : ℤ) (sym : String)
    (g : SignalType) (pr : ℚ) :
    (m.execute_transaction d sym g pr).1.parameters = m.parameters := by
  rcases execute_transaction_spec m d sym g pr with heq |
    ⟨m2, t, heq, _, _, _, _, _, _, _, hpar, _, _, _⟩
  · rw [heq]
  · rw [heq]; exact hpar

theorem run_steps_parameters (steps : List LedgerStep) :
    ∀ m : BlueModel, (run_steps m steps).parameters = m.parameters := by
  induction steps with
  | nil => intro m; rfl
  | cons s rest ih =>
    intro m
    cases s with
    | execute d sym g pr => rw [run_steps, ih, execute_transaction_parameters]
    | updatePrices ps => exact ih _

/-!  Claim theorems  -/

/-- Claim C1 (amended): after any sequence of ledger interactions
(executed buy/sell transactions and daily price updates) starting from a
fresh Ledger, the cash alone satisfies
cash = initial_capital + sum over executed Sell transactions of
(shares*price - fees) - sum over executed Buy transactions of
(shares*price + fees); the held positions' market value is not part of
this identity. -/
theorem claim_C1_amended (p : SimulationParameters) (steps : List LedgerStep) :
    (run_steps (init_model p) steps).cash =
      p.initial_capital + sell_proceeds_sum (run_steps (init_model p) steps).transactions
        - buy_costs_sum (run_steps (init_model p) steps).transactions := by
  have h0 : cash_identity (init_model p) := by
    simp [cash_identity, init_model, sell_proceeds_sum, buy_costs_sum]
  have h := cash_identity_run steps (init_model p) h0
  unfold cash_identity at h
  rwa [run_steps_parameters] at h

/-- Claim C1 counterexample: one executed Strong Buy from a fresh
ledger (initial capital 1000, no fee, 100-percent sizing, price 10)
leaves cash 0 and a position worth 1000, so
cash + positions value = 1000 while
initial + sell sums - buy sums = 0: the claimed equation fails. -/
theorem claim_C1_counterexample :
    (run_steps (init_model cexC1Params) [LedgerStep.execute 0 "A" SignalType.STRONG_BUY 10]).cash
        + positions_value (run_steps (init_model cexC1Params) [LedgerStep.execute 0 "A" SignalType.STRONG_BUY 10]) ≠
      cexC1Params.initial_capital
        + sell_proceeds_sum (run_steps (init_model cexC1Params) [LedgerStep.execute 0 "A" SignalType.STRONG_BUY 10]).transactions
        - buy_costs_sum (run_steps (init_model cexC1Params) [LedgerStep.execute 0 "A" SignalType.STRONG_BUY 10]).transactions := by
  norm_num [run_steps, init_model, BlueModel.execute_transaction, BlueModel.computeOrder,
    BlueModel.calculate_investment_amount, BlueModel.calculate_max_shares,
    BlueModel.get_total_portfolio_value, pyInt, transaction_signature, Transaction.get_signature,
    Transaction.total_amount, alookup, aset, aerase, positions_value, sell_proceeds_sum,
    buy_costs_sum, Position.market_value, cexC1Params, reduceCtorEq]
  decide

/-- Claim C2: for every close series and fixed integer periods, the
Indicator Calculator returns macd_line = EMA(close, fast) - EMA(close, slow),
signal_line = EMA(macd_line, signal), histogram = macd_line - signal_line,
with EMA the recursive exponential weighting of smoothing factor
2/(period+1) seeded from the first value (emaSpec, written from the
spec's words).  The embedding is a pure function, so the output is
identical across repeated runs. -/
theorem claim_C2_macd_matches_spec (close : List ℚ) (fast slow signal : ℕ) :
    calculate_macd (some close) fast slow signal =
      Except.ok (specMacdLine fast slow close, specSignalLine fast slow signal close,
        specHistogram fast slow signal close) := by
  simp only [calculate_macd, specMacdLine, specSignalLine, specHistogram, ewmMean_eq_emaSpec]

/-- Claim C6 (amended): calculate_macd fails with a data error if and
only if the close-price field is absent; the length of the series is not
checked (a series with fewer than 2 points still returns the three
series without raising). -/
theorem claim_C6_amended (close : Option (List ℚ)) (fast slow signal : ℕ) :
    exceptOk (calculate_macd close fast slow signal) = close.isSome := by
  cases close <;> rfl

/-- Claim C6 counterexample: a one-point series (fewer than 2 points)
does not fail, contradicting the claim that it must. -/
theorem claim_C6_counterexample :
    exceptOk (calculate_macd (some [5]) 12 26 9) = true ∧ ([(5 : ℚ)]).length < 2 := by
  constructor
  · rfl
  · decide

/-- Claim C4: the signal classifier evaluates in the fixed priority
order with first match winning — strength at or above the strong-buy
threshold gives Strong Buy; otherwise at or above the buy threshold
gives Buy; otherwise at or below the strong-sell threshold gives Strong
Sell; otherwise at or below the sell threshold gives Sell; otherwise
Neutral — and missing threshold keys are filled with the defaults
strong_buy=0.5, buy=0, sell=0, strong_sell=-0.5. -/
theorem claim_C4_classification_order (strength : ℚ) (params : RecommendationParams) :
    ((analyze_macd_signal_classify strength params = SignalType.STRONG_BUY ↔
        params.strong_buy.getD (1/2) ≤ strength) ∧
     (analyze_macd_signal_classify strength params = SignalType.BUY ↔
        strength < params.strong_buy.getD (1/2) ∧ params.buy.getD 0 ≤ strength) ∧
     (analyze_macd_signal_classify strength params = SignalType.STRONG_SELL ↔
        strength < params.strong_buy.getD (1/2) ∧ strength < params.buy.getD 0 ∧
        strength ≤ params.strong_sell.getD (-(1/2))) ∧
     (analyze_macd_signal_classify strength params = SignalType.SELL ↔
        strength < params.strong_buy.getD (1/2) ∧ strength < params.buy.getD 0 ∧
        params.strong_sell.getD (-(1/2)) < strength ∧ strength ≤ params.sell.getD 0) ∧
     (analyze_macd_signal_classify strength params = SignalType.NEUTRAL ↔
        strength < params.strong_buy.getD (1/2) ∧ strength < params.buy.getD 0 ∧
        params.strong_sell.getD (-(1/2)) < strength ∧ params.sell.getD 0 < strength)) ∧
    analyze_macd_signal_classify strength
        { strong_buy := none, buy := none, sell := none, strong_sell := none } =
      analyze_macd_signal_classify strength
        { strong_buy := some (1/2), buy := some 0, sell := some 0, strong_sell := some (-(1/2)) } := by
  constructor
  · unfold analyze_macd_signal_classify
    dsimp only
    split_ifs with h1 h2 h3 h4 <;>
      refine ⟨?_, ?_, ?_, ?_, ?_⟩ <;>
        simp_all [not_le, not_lt]
  · rfl

/-- Claim C5: if two execute attempts in one run compute the identical
(date, symbol, direction, shares) deduplication key — price is not part
of the key — exactly one Transaction is recorded: the first succeeds and
appends it, and the second attempt is discarded as a no-op that leaves
cash, positions, and the transaction log unchanged (the returned state
is exactly the pre-call state, with no transaction). -/
theorem claim_C5_dedup_idempotent (m m2 : BlueModel) (t : Transaction)
    (d1 : ℤ) (s1 : String) (g1 : SignalType) (p1 : ℚ)
    (d2 : ℤ) (s2 : String) (g2 : SignalType) (p2 : ℚ)
    (h1 : m.execute_transaction d1 s1 g1 p1 = (m2, some t))
    (h2 : m2.attempt_signature d2 s2 g2 p2 = some t.get_signature) :
    m2.execute_transaction d2 s2 g2 p2 = (m2, none) ∧
    m2.transactions = m.transactions ++ [t] := by
  rcases execute_transaction_spec m d1 s1 g1 p1 with heq |
    ⟨m2q, tq, heq, _, _, _, _, _, _, _, _, htr, hsig, _⟩
  · rw [heq] at h1
    exact absurd (congrArg Prod.snd h1) (by simp)
  · rw [heq] at h1
    have hm : m2q = m2 := congrArg Prod.fst h1
    have ht : tq = t := Option.some.inj (congrArg Prod.snd h1)
    rw [hm, ht] at htr hsig
    refine ⟨?_, htr⟩
    unfold BlueModel.attempt_signature at h2
    rcases hco2 : BlueModel.computeOrder m2 s2 g2 p2 with _ | ⟨ty2, sh2⟩
    · rw [hco2] at h2; simp at h2
    · rw [hco2] at h2
      simp only [Option.map_some'] at h2
      have h2q : transaction_signature d2 s2 ty2 sh2 = t.get_signature := Option.some.inj h2
      simp only [BlueModel.execute_transaction, hco2]
      rw [if_pos]
      rw [h2q, hsig]
      exact List.mem_cons_self _ _

/-- Claim C5 witness: in the concrete 3-share scenario the first sell
records one 1-share transaction and the repeated identical call, whose
computed key matches, is a no-op. -/
theorem claim_C5_dedup_idempotent_witness :
    cexC5Model.execute_transaction 0 "AAPL" SignalType.SELL 10 = (cexC5Model2, some cexC5T) ∧
    cexC5Model2.attempt_signature 0 "AAPL" SignalType.SELL 10 = some cexC5T.get_signature ∧
    (cexC5Model2.execute_transaction 0 "AAPL" SignalType.SELL 10 = (cexC5Model2, none) ∧
      cexC5Model2.transactions = cexC5Model.transactions ++ [cexC5T]) := by
  have h1 : cexC5Model.execute_transaction 0 "AAPL" SignalType.SELL 10 = (cexC5Model2, some cexC5T) := by
    simp only [BlueModel.execute_transaction, BlueModel.computeOrder,
      BlueModel.calculate_investment_amount, BlueModel.calculate_max_shares,
      BlueModel.get_total_portfolio_value, pyInt, Transaction.total_amount,
      alookup, aset, aerase, Position.market_value, cexC5Model, cexC5Model2, cexC5Params,
      cexC5T]
    norm_num
    simp
    norm_num
  have h2 : cexC5Model2.attempt_signature 0 "AAPL" SignalType.SELL 10 = some cexC5T.get_signature := by
    simp only [BlueModel.attempt_signature, BlueModel.computeOrder,
      BlueModel.calculate_investment_amount, BlueModel.calculate_max_shares,
      BlueModel.get_total_portfolio_value, pyInt, Transaction.get_signature,
      alookup, Position.market_value, cexC5Model2, cexC5Params, cexC5T]
    norm_num
    simp
    exact ⟨_, _, ⟨rfl, rfl⟩, rfl⟩
  exact ⟨h1, h2, claim_C5_dedup_idempotent cexC5Model cexC5Model2 cexC5T 0 "AAPL" SignalType.SELL 10
    0 "AAPL" SignalType.SELL 10 h1 h2⟩

theorem computeOrder_sell_shape (m : BlueModel) (sym : String) (g : SignalType) (pr : ℚ)
    (hsig : g = SignalType.SELL ∨ g = SignalType.STRONG_SELL) :
    (∀ res, m.computeOrder sym g pr = some res →
      ∃ pos, alookup m.positions sym = some pos ∧ 0 < pos.shares ∧
        res = (TransactionType.SELL, min pos.shares (max 1 (pyInt
          (m.calculate_investment_amount g m.cash pos.market_value / pos.market_value
            * (pos.shares : ℚ)))))) ∧
    ((∀ pos, alookup m.positions sym = some pos → pos.shares ≤ 0) →
      m.computeOrder sym g pr = none) := by
  have hs : ¬(g = SignalType.STRONG_BUY ∨ g = SignalType.BUY) := by
    rcases hsig with h | h <;> subst h <;> simp
  unfold BlueModel.computeOrder
  dsimp only
  rcases hpos : alookup m.positions sym with _ | p
  · constructor
    · intro res hres
      dsimp only at hres
      split_ifs at hres <;> simp_all
    · intro hyp
      dsimp only
      split_ifs <;> simp_all
  · rcases le_or_lt p.shares 0 with hsh | hsh
    · constructor
      · intro res hres
        dsimp only at hres
        split_ifs at hres <;> simp_all
      · intro hyp
        dsimp only
        split_ifs <;> simp_all
    · constructor
      · intro res hres
        dsimp only at hres
        split_ifs at hres <;>
          first
            | simp_all
            | exact ⟨p, rfl, hsh, (Option.some.inj hres).symm⟩
      · intro hyp
        exact absurd (hyp p rfl) (not_le.mpr hsh)

/-- Claim C3 (amended): for every execute call with a Sell or Strong
Sell signal, if a transaction is executed then the number of shares sold
equals min(position.shares, max(1, int(amount/position_value *
position.shares))) where amount is the category sell percentage applied
to the position market value and int is Python truncation (the source
uses int(), not nearest-integer rounding); and the call is a no-op when
no position with shares > 0 exists. -/
theorem claim_C3_amended (m : BlueModel) (d : ℤ) (sym : String) (g : SignalType) (pr : ℚ)
    (hsig : g = SignalType.SELL ∨ g = SignalType.STRONG_SELL) :
    (∀ m2 t, m.execute_transaction d sym g pr = (m2, some t) →
      ∃ pos, alookup m.positions sym = some pos ∧ 0 < pos.shares ∧
        t.shares = min pos.shares (max 1 (pyInt
          (m.calculate_investment_amount g m.cash pos.market_value / pos.market_value
            * (pos.shares : ℚ))))) ∧
    ((∀ pos, alookup m.positions sym = some pos → pos.shares ≤ 0) →
      m.execute_transaction d sym g pr = (m, none)) := by
  obtain ⟨hshape, hnone⟩ := computeOrder_sell_shape m sym g pr hsig
  constructor
  · intro m2 t heq
    rcases execute_transaction_spec m d sym g pr with heq2 |
      ⟨m2q, tq, heq2, hco, _, _, _, _, _, _, _, _, _, _⟩
    · rw [heq2] at heq
      exact absurd (congrArg Prod.snd heq) (by simp)
    · rw [heq2] at heq
      have ht : tq = t := Option.some.inj (congrArg Prod.snd heq)
      rw [ht] at hco
      obtain ⟨pos, hpos, hpsh, hres⟩ := hshape _ hco
      exact ⟨pos, hpos, hpsh, congrArg Prod.snd hres⟩
  · intro hyp
    have h0 := hnone hyp
    simp only [BlueModel.execute_transaction, h0]

/-- Claim C3 counterexample: with a 10-share position marked at 1 and a
57-percent sell category, the executed Sell trades 5 shares (Python
int(5.7)), while the claimed nearest-integer formula demands
min(10, max(1, round(5.7))) = 6. -/
theorem claim_C3_counterexample :
    (cexC3Model.execute_transaction 0 "A" SignalType.SELL 1).2.map Transaction.shares = some 5 ∧
    alookup cexC3Model.positions "A" = some cexC3Pos ∧
    min cexC3Pos.shares (max 1 (round
      (cexC3Model.calculate_investment_amount SignalType.SELL cexC3Model.cash cexC3Pos.market_value
        / cexC3Pos.market_value * (cexC3Pos.shares : ℚ)))) = 6 ∧
    (5 : ℤ) ≠ 6 := by
  refine ⟨?_, by simp [cexC3Model, cexC3Pos, alookup], ?_, by decide⟩
  · simp only [BlueModel.execute_transaction, BlueModel.computeOrder,
      BlueModel.calculate_investment_amount, BlueModel.calculate_max_shares,
      BlueModel.get_total_portfolio_value, pyInt, Transaction.total_amount,
      alookup, aset, aerase, Position.market_value, cexC3Model, cexC3Pos, cexC1Params]
    norm_num
    simp
  · simp only [BlueModel.calculate_investment_amount, BlueModel.get_total_portfolio_value,
      Position.market_value, cexC3Model, cexC3Pos, cexC1Params, round_eq]
    norm_num

/-- Claim C3 witness: the amended sizing law instantiated on the
concrete 10-share, 57-percent scenario. -/
theorem claim_C3_amended_witness :
    (SignalType.SELL = SignalType.SELL ∨ SignalType.SELL = SignalType.STRONG_SELL) ∧
    ((∀ m2 t, cexC3Model.execute_transaction 0 "A" SignalType.SELL 1 = (m2, some t) →
      ∃ pos, alookup cexC3Model.positions "A" = some pos ∧ 0 < pos.shares ∧
        t.shares = min pos.shares (max 1 (pyInt
          (cexC3Model.calculate_investment_amount SignalType.SELL cexC3Model.cash pos.market_value
            / pos.market_value * (pos.shares : ℚ))))) ∧
    ((∀ pos, alookup cexC3Model.positions "A" = some pos → pos.shares ≤ 0) →
      cexC3Model.execute_transaction 0 "A" SignalType.SELL 1 = (cexC3Model, none))) :=
  ⟨Or.inl rfl, claim_C3_amended cexC3Model 0 "A" SignalType.SELL 1 (Or.inl rfl)⟩

theorem max_shares_spend_le (m : BlueModel) (pr A C : ℚ)
    (hf0 : 0 ≤ m.parameters.transaction_fee_percent)
    (hApos : 0 < A) (hAle : A ≤ C) (hpr : 0 < pr) :
    ((m.calculate_max_shares pr A : ℤ) : ℚ)
      * (pr * (1 + m.parameters.transaction_fee_percent / 100)) ≤ C := by
  have hmult : (0:ℚ) < 1 + m.parameters.transaction_fee_percent / 100 := by linarith
  have hd : (0:ℚ) < pr * (1 + m.parameters.transaction_fee_percent / 100) := mul_pos hpr hmult
  have hfloor : ((m.calculate_max_shares pr A : ℤ) : ℚ)
      ≤ A / (pr * (1 + m.parameters.transaction_fee_percent / 100)) := by
    unfold BlueModel.calculate_max_shares pyInt
    rw [if_pos (le_of_lt (div_pos hApos hd))]
    exact Int.floor_le _
  calc ((m.calculate_max_shares pr A : ℤ) : ℚ)
        * (pr * (1 + m.parameters.transaction_fee_percent / 100))
      ≤ (A / (pr * (1 + m.parameters.transaction_fee_percent / 100)))
          * (pr * (1 + m.parameters.transaction_fee_percent / 100)) :=
        mul_le_mul_of_nonneg_right hfloor (le_of_lt hd)
    _ = A := div_mul_cancel₀ _ (ne_of_gt hd)
    _ ≤ C := hAle

theorem computeOrder_buy_bound (m : BlueModel) (sym : String) (g : SignalType) (pr : ℚ) (sh : ℤ)
    (hv : m.parameters.percentages_and_capital_valid) (hc : 0 ≤ m.cash) (hpr : 0 < pr)
    (h : m.computeOrder sym g pr = some (TransactionType.BUY, sh)) :
    0 < sh ∧ (sh : ℚ) * (pr * (1 + m.parameters.transaction_fee_percent / 100)) ≤ m.cash := by
  obtain ⟨hf0, hf100, hm0, hm100, hsb0, hsb100, hb0, hb100, hs0, hs100, hss0, hss100, hcap⟩ := hv
  unfold BlueModel.computeOrder at h
  dsimp only at h
  set cpv := (match alookup m.positions sym with
    | some p => p.market_value
    | none => 0) with hcpv
  set A := m.calculate_investment_amount g m.cash cpv with hAdef
  by_cases hA : A ≤ 0
  · rw [if_pos hA] at h
    exact absurd h (by simp)
  by_cases hsig2 : g = SignalType.STRONG_BUY ∨ g = SignalType.BUY
  · rw [if_neg hA, if_pos hsig2] at h
    by_cases hshz : m.calculate_max_shares pr A ≤ 0
    · rw [if_pos hshz] at h
      exact absurd h (by simp)
    · rw [if_neg hshz] at h
      rw [Option.some_inj, Prod.mk.injEq] at h
      have hsh : sh = m.calculate_max_shares pr A := h.2.symm
      have hApos : 0 < A := lt_of_not_le hA
      have hAle : A ≤ m.cash := by
        rcases hsig2 with hg | hg <;> subst hg <;>
          rw [hAdef] <;>
          unfold BlueModel.calculate_investment_amount <;> dsimp only
        · have h2 : m.cash * (m.parameters.strong_buy_percent / 100) ≤ m.cash :=
            mul_le_of_le_one_right hc (by linarith)
          exact le_trans (min_le_left _ _) h2
        · have h2 : m.cash * (m.parameters.buy_percent / 100) ≤ m.cash :=
            mul_le_of_le_one_right hc (by linarith)
          exact le_trans (min_le_left _ _) h2
      refine ⟨by omega, ?_⟩
      rw [hsh]
      exact max_shares_spend_le m pr A m.cash hf0 hApos hAle hpr
  · rw [if_neg hA, if_neg hsig2] at h
    rcases hpos : alookup m.positions sym with _ | p <;> rw [hpos] at h <;> dsimp only at h
    · exact absurd h (by simp)
    · split_ifs at h <;> simp_all

theorem computeOrder_sell_pos (m : BlueModel) (sym : String) (g : SignalType) (pr : ℚ) (sh : ℤ)
    (h : m.computeOrder sym g pr = some (TransactionType.SELL, sh)) : 0 < sh := by
  unfold BlueModel.computeOrder at h
  dsimp only at h
  rcases hpos : alookup m.positions sym with _ | p <;> rw [hpos] at h <;> dsimp only at h <;>
    split_ifs at h <;> simp_all <;> omega

theorem execute_transaction_cash_nonneg (m : BlueModel) (d : ℤ) (sym : String)
    (g : SignalType) (pr : ℚ)
    (hv : m.parameters.percentages_and_capital_valid) (hc : 0 ≤ m.cash) (hpr : 0 < pr) :
    0 ≤ (m.execute_transaction d sym g pr).1.cash := by
  rcases execute_transaction_spec m d sym g pr with heq |
    ⟨m2, t, heq, hco, _, _, _, hprice, hfees, _, _, _, _, hcash⟩
  · rw [heq]; exact hc
  · have h1 : (m.execute_transaction d sym g pr).1 = m2 := by rw [heq]
    rw [h1]
    have hf0 := hv.1
    have hf100 := hv.2.1
    cases htt : t.transaction_type
    · -- BUY
      rw [htt] at hco
      obtain ⟨hshpos, hbound⟩ := computeOrder_buy_bound m sym g pr t.shares hv hc hpr hco
      rw [hcash, htt]
      simp only [if_pos]
      unfold Transaction.total_amount
      rw [htt, if_pos rfl, hprice, hfees]
      have hexp : (t.shares : ℚ) * pr + (t.shares : ℚ) * pr * (m.parameters.transaction_fee_percent / 100)
          = (t.shares : ℚ) * (pr * (1 + m.parameters.transaction_fee_percent / 100)) := by ring
      linarith [hbound, hexp]
    · -- SELL
      rw [htt] at hco
      have hshpos : 0 < t.shares := computeOrder_sell_pos m sym g pr t.shares hco
      rw [hcash, htt]
      simp only [reduceCtorEq, if_false]
      unfold Transaction.total_amount
      rw [htt]
      simp only [reduceCtorEq, if_false]
      rw [hprice, hfees]
      have hcred : (0:ℚ) ≤ (t.shares : ℚ) * pr - (t.shares : ℚ) * pr * (m.parameters.transaction_fee_percent / 100) := by
        have hsp : (0:ℚ) ≤ (t.shares : ℚ) * pr :=
          mul_nonneg (by exact_mod_cast le_of_lt hshpos) (le_of_lt hpr)
        nlinarith [hsp, hf100]
      linarith

theorem run_steps_cash_nonneg (steps : List LedgerStep) :
    ∀ m : BlueModel, m.parameters.percentages_and_capital_valid → 0 ≤ m.cash →
      (∀ s ∈ steps, stepPricePositive s) → 0 ≤ (run_steps m steps).cash := by
  induction steps with
  | nil => intro m _ hc _; exact hc
  | cons s rest ih =>
    intro m hv hc hall
    cases s with
    | execute d sym g pr =>
      have hpr : 0 < pr := hall _ (List.mem_cons_self _ _)
      refine ih _ ?_ ?_ ?_
      · rw [execute_transaction_parameters]; exact hv
      · exact execute_transaction_cash_nonneg m d sym g pr hv hc hpr
      · intro s2 hs2; exact hall _ (List.mem_cons_of_mem _ hs2)
    | updatePrices ps =>
      refine ih _ hv hc ?_
      intro s2 hs2; exact hall _ (List.mem_cons_of_mem _ hs2)

/-- Claim C10: for valid parameters (all percentages in [0,100] and
positive initial capital) and any sequence of ledger interactions with
positive execute prices, cash stays nonnegative: a buy debits
shares*price*(1 + fee/100), which the floored share computation keeps at
or below the target amount, itself at most cash; a sell only credits
cash since its fee is at most 100 percent of proceeds. -/
theorem claim_C10_cash_nonneg (p : SimulationParameters) (steps : List LedgerStep)
    (hv : p.percentages_and_capital_valid)
    (hall : ∀ s ∈ steps, stepPricePositive s) :
    0 ≤ (run_steps (init_model p) steps).cash := by
  have hcap : 0 < p.initial_capital :=
    hv.2.2.2.2.2.2.2.2.2.2.2.2
  exact run_steps_cash_nonneg steps (init_model p) hv (le_of_lt hcap) hall

/-- Claim C10 witness: the invariant instantiated on the concrete
strong-buy scenario. -/
theorem claim_C10_cash_nonneg_witness :
    cexC1Params.percentages_and_capital_valid ∧
    (∀ s ∈ [LedgerStep.execute 0 "A" SignalType.STRONG_BUY 10], stepPricePositive s) ∧
    0 ≤ (run_steps (init_model cexC1Params) [LedgerStep.execute 0 "A" SignalType.STRONG_BUY 10]).cash := by
  have h1 : cexC1Params.percentages_and_capital_valid := by
    norm_num [SimulationParameters.percentages_and_capital_valid, cexC1Params]
  have h2 : ∀ s ∈ [LedgerStep.execute 0 "A" SignalType.STRONG_BUY 10], stepPricePositive s := by
    intro s hs
    simp only [List.mem_singleton] at hs
    subst hs
    norm_num [stepPricePositive]
  exact ⟨h1, h2, claim_C10_cash_nonneg cexC1Params _ h1 h2⟩

theorem pctChangeAux_replicate (v : ℚ) :
    ∀ k : ℕ, pctChangeAux v (List.replicate k v) = List.replicate k 0 := by
  intro k
  induction k with
  | zero => rfl
  | succ n ih => simp [List.replicate_succ, pctChangeAux, ih]

theorem pct_change_filled_replicate (v : ℚ) (n : ℕ) (h : 1 ≤ n) :
    pct_change_filled (List.replicate n v) = List.replicate n 0 := by
  cases n with
  | zero => omega
  | succ k =>
    simp only [List.replicate_succ, pct_change_filled, pctChangeAux_replicate]

theorem listMean_replicate (c : ℚ) (n : ℕ) (h : n ≠ 0) :
    listMean (List.replicate n c) = c := by
  unfold listMean
  rw [List.sum_replicate, List.length_replicate, nsmul_eq_mul]
  have hn : (n:ℚ) ≠ 0 := Nat.cast_ne_zero.mpr h
  field_simp

theorem sampleVariance_replicate (c : ℚ) (n : ℕ) (h : 2 ≤ n) :
    sampleVariance (List.replicate n c) = some 0 := by
  unfold sampleVariance
  rw [if_neg (by simp; omega)]
  rw [listMean_replicate c n (by omega), List.map_replicate]
  simp

/-- Claim C7: for the scripted per-symbol sequence Buy 100 at 10, Buy 50
at 12, Sell 120 at 15, FIFO completed-trade reconstruction produces
exactly two records: the first consumes the whole first lot (100 shares
at 10), the second consumes 20 shares of the second lot (at 12), each
with profit = sell proceeds share - buy cost share, both sides' fees
pro-rated by shares; holding periods are sell date minus each matched
buy date. -/
theorem claim_C7_fifo (sym : String) (f1 f2 fs : ℚ) (d1 d2 d3 : ℤ) (g1 g2 g3 : SignalType) :
    completedTradesFifo
      [{ date := d1, symbol := sym, transaction_type := TransactionType.BUY, signal_type := g1,
         shares := 100, price := 10, fees := f1 },
       { date := d2, symbol := sym, transaction_type := TransactionType.BUY, signal_type := g2,
         shares := 50, price := 12, fees := f2 },
       { date := d3, symbol := sym, transaction_type := TransactionType.SELL, signal_type := g3,
         shares := 120, price := 15, fees := fs }] [] =
      [{ profit := ((100:ℚ) * 15 - fs * 100 / 120) - ((100:ℚ) * 10 + f1 * 100 / 100),
         holding_period := d3 - d1 },
       { profit := ((20:ℚ) * 15 - fs * 20 / 120) - ((20:ℚ) * 12 + f2 * 20 / 50),
         holding_period := d3 - d2 }] := by
  norm_num [completedTradesFifo, consumeLots, alookup, aset, aerase]

/-- Claim C8 (amended): for every constant portfolio-value series of
length at least 2, the Sharpe computation takes the zero branch (sample
variance of the excess returns is 0, the std != 0 guard fails, the code
returns 0), for every daily risk-free rate; a length-1 series instead
hits the NaN branch (pandas sample std of one value), which is the
amendment the counterexample forces. -/
theorem claim_C8_amended (daily_rf v : ℚ) (n : ℕ) (h : 2 ≤ n) :
    sharpe_branch daily_rf (List.replicate n v) = SharpeBranch.zeroValue := by
  unfold sharpe_branch
  dsimp only
  rw [pct_change_filled_replicate v n (by omega), List.map_replicate,
    sampleVariance_replicate _ n h]
  simp

/-- Claim C8 witness: the zero branch on the concrete constant series of
length 3. -/
theorem claim_C8_amended_witness :
    2 ≤ 3 ∧ sharpe_branch (1/100) (List.replicate 3 10000) = SharpeBranch.zeroValue :=
  ⟨by norm_num, claim_C8_amended (1/100) 10000 3 (by norm_num)⟩

/-- Claim C8 counterexample: a constant one-snapshot series yields the
NaN branch (sample std of a single excess return is NaN and NaN != 0
passes the guard), not 0, falsifying the claim for length-1 constant
series. -/
theorem claim_C8_counterexample :
    sharpe_branch (1/100) (List.replicate 1 10000) = SharpeBranch.nanValue ∧
    SharpeBranch.nanValue ≠ SharpeBranch.zeroValue := by
  constructor
  · norm_num [sharpe_branch, pct_change_filled, pctChangeAux, sampleVariance, listMean,
      List.replicate]
  · decide

/-- Claim C9 (amended): whenever the trend-strength computation raises,
the classifier does not propagate the exception: it substitutes +0.1 or
-0.1 according to whether the last histogram value is positive when the
histogram series is present and nonempty, and 0.0 when reading the last
histogram value itself fails (missing key or empty series); a
classification is still produced for the substituted strength. -/
theorem claim_C9_amended (close : List ℚ) (m : MacdData)
    (hraise : trendStrengthChecked close m = Except.error ()) :
    calculate_trend_strength close m =
      TrendOutcome.fallbackValue
        (match m.histogram.bind List.getLast? with
         | some lh => if 0 < lh then 1/10 else -(1/10)
         | none => 0) ∧
    (∀ q params, calculate_trend_strength close m = TrendOutcome.fallbackValue q →
      analyze_macd_signal_classify q params = SignalType.STRONG_BUY ∨
      analyze_macd_signal_classify q params = SignalType.BUY ∨
      analyze_macd_signal_classify q params = SignalType.NEUTRAL ∨
      analyze_macd_signal_classify q params = SignalType.SELL ∨
      analyze_macd_signal_classify q params = SignalType.STRONG_SELL) := by
  constructor
  · unfold calculate_trend_strength
    rw [hraise]
    rcases m.histogram with _ | hist
    · rfl
    · rcases hlast : hist.getLast? with _ | lh <;> simp [Option.bind, hlast]
  · intro q params _
    unfold analyze_macd_signal_classify
    dsimp only
    split_ifs <;> simp

/-- Claim C9 witness: with the signal_line key missing and histogram
[2], the computation raises and the substituted strength is +0.1. -/
theorem claim_C9_amended_witness :
    trendStrengthChecked [1, 2, 3] cexC9MacdW = Except.error () ∧
    (calculate_trend_strength [1, 2, 3] cexC9MacdW =
      TrendOutcome.fallbackValue
        (match cexC9MacdW.histogram.bind List.getLast? with
         | some lh => if 0 < lh then 1/10 else -(1/10)
         | none => 0) ∧
    (∀ q params, calculate_trend_strength [1, 2, 3] cexC9MacdW = TrendOutcome.fallbackValue q →
      analyze_macd_signal_classify q params = SignalType.STRONG_BUY ∨
      analyze_macd_signal_classify q params = SignalType.BUY ∨
      analyze_macd_signal_classify q params = SignalType.NEUTRAL ∨
      analyze_macd_signal_classify q params = SignalType.SELL ∨
      analyze_macd_signal_classify q params = SignalType.STRONG_SELL)) := by
  have h1 : trendStrengthChecked [1, 2, 3] cexC9MacdW = Except.error () := by
    norm_num [trendStrengthChecked, cexC9MacdW]
  exact ⟨h1, claim_C9_amended [1, 2, 3] cexC9MacdW h1⟩

/-- Claim C9 counterexample: when the histogram key itself is missing
the computation raises but the substituted strength is 0.0, not +0.1 or
-0.1 as the claim states. -/
theorem claim_C9_counterexample :
    trendStrengthChecked [1, 2, 3] cexC9MacdC = Except.error () ∧
    calculate_trend_strength [1, 2, 3] cexC9MacdC = TrendOutcome.fallbackValue 0 ∧
    (0 : ℚ) ≠ 1/10 ∧ (0 : ℚ) ≠ -(1/10) := by
  refine ⟨?_, ?_, by norm_num, by norm_num⟩
  · norm_num [trendStrengthChecked, cexC9MacdC]
  · norm_num [calculate_trend_strength, trendStrengthChecked, cexC9MacdC]

end StockSim
